import Mathlib

/-!
# LodeStar core trust engine: a verification development

Shallow embedding of the LodeStar repository's verification core:

* the canonical JSON encoder and client-side signature verification from
  `src/frontend/js/verifier.js` (`sortKeys`, `verifySignatureWithWebCrypto`,
  `verifySignatureClientSide`, `base64ToUint8Array`, `pemToUint8Array`);
* spec-modelled definitions for the parts of the core that the repository
  only declares in its design documents (the typed-outcome Signature
  Verifier of spec §4.3, the Consensus Engine of §4.5, and the Moderation
  Queue resolution of §4.6 — `secure_volunteer_system_design.md` names
  `consensus_engine.py`, `moderation_queue.py` and a verification network,
  none of which are present as code).

JavaScript values reachable from a parsed payload are modelled by `Js`:
JSON scalars (numbers restricted to integers — the repository's payloads
carry integral and string data, and floating point is outside the
embedding), arrays, plain objects (association lists in insertion order,
as JS objects are), plus `undef`/`func` for the value types
`JSON.stringify` does not support (`undefined`/symbols and functions).
The WebCrypto primitives (`crypto.subtle.importKey`/`verify`) are external
to the repository and are abstracted as function parameters.
-/

namespace LodeStar

/-- A JavaScript value as seen by `JSON.stringify` in `verifier.js`.
Objects are association lists of fields in insertion order. `undef` stands
for `undefined` (and symbols), `func` for function values: the types
outside the scalar/sequence/mapping set. -/
inductive Js where
  | null : Js
  | bool (b : Bool) : Js
  | num (n : Int) : Js
  | str (s : String) : Js
  | arr (xs : List Js) : Js
  | obj (fs : List (String × Js)) : Js
  | undef : Js
  | func : Js

/-- One hexadecimal digit, lower case, as used by `JSON.stringify` in
`\u00XX` escapes of control characters. -/
def hexDigit (n : Nat) : String :=
  if n = 0 then "0" else if n = 1 then "1" else if n = 2 then "2"
  else if n = 3 then "3" else if n = 4 then "4" else if n = 5 then "5"
  else if n = 6 then "6" else if n = 7 then "7" else if n = 8 then "8"
  else if n = 9 then "9" else if n = 10 then "a" else if n = 11 then "b"
  else if n = 12 then "c" else if n = 13 then "d" else if n = 14 then "e"
  else "f"

/-- JSON escaping of a single character (ECMA-262 `QuoteJSONString`). -/
def escapeChar (c : Char) : String :=
  if c = '"' then "\\\""
  else if c = '\\' then "\\\\"
  else if c = '\n' then "\\n"
  else if c = '\r' then "\\r"
  else if c = '\t' then "\\t"
  else if c = '\x08' then "\\b"
  else if c = '\x0c' then "\\f"
  else if c.toNat < 32 then "\\u00" ++ hexDigit (c.toNat / 16) ++ hexDigit (c.toNat % 16)
  else String.singleton c

/-- JSON quotation of a string (ECMA-262 `QuoteJSONString`). -/
def jsonQuote (s : String) : String :=
  "\"" ++ String.join (s.toList.map escapeChar) ++ "\""

/-- Lexicographic comparison of character lists, the order behind the
default JavaScript string `sort()` used by the `sortKeys` replacer
(`Object.keys(value).sort()` compares strings unit by unit). -/
def charListLe : List Char → List Char → Bool
  | [], _ => true
  | _ :: _, [] => false
  | a :: as, b :: bs =>
      if a < b then true else if b < a then false else charListLe as bs

/-- Lexicographic string comparison (JS default string sort order). -/
def strLe (a b : String) : Bool := charListLe a.data b.data

/-- Key order used by the `sortKeys` replacer in `verifier.js`, on fields
that have already been serialized. -/
def pairLE (p q : String × Option String) : Prop := strLe p.1 q.1 = true

instance : DecidableRel pairLE :=
  fun p q => inferInstanceAs (Decidable (strLe p.1 q.1 = true))

/-- The same key order on unserialized fields. -/
def fieldLE (p q : String × Js) : Prop := strLe p.1 q.1 = true

instance : DecidableRel fieldLE :=
  fun p q => inferInstanceAs (Decidable (strLe p.1 q.1 = true))

/-- Serialized object entry: a field whose value serialized to `none`
(`undefined`/function) is omitted, exactly as `JSON.stringify` omits it. -/
def entryStr (p : String × Option String) : Option String :=
  p.2.map (fun s => jsonQuote p.1 ++ ":" ++ s)

mutual

/-- `JSON.stringify(v, sortKeys)` from `verifier.js`: the canonical
encoder.  Returns `none` when the root value is unsupported
(`JSON.stringify` returns `undefined` there).  Object keys are emitted in
sorted order — the effect of the `sortKeys` replacer at every nesting
level — fields whose value is unsupported are omitted, and unsupported
array elements serialize as `null`.  Fields are serialized first and the
serialized fields are then sorted by key; since serialization keeps each
key, this equals sorting the fields first as `sortKeys` does
(`serFields_insertionSort` below). -/
def serializeVal : Js → Option String
  | .null => some "null"
  | .bool true => some "true"
  | .bool false => some "false"
  | .num n => some (toString n)
  | .str s => some (jsonQuote s)
  | .arr xs => some ("[" ++ String.intercalate "," (serArr xs) ++ "]")
  | .obj fs =>
      some ("\x7b" ++
        String.intercalate ","
          ((List.insertionSort pairLE (serFields fs)).filterMap entryStr) ++
        "\x7d")
  | .undef => none
  | .func => none
termination_by structural x => x

/-- Elementwise serialization of a JS array; `undefined`/function elements
become `"null"` under `JSON.stringify`. -/
def serArr : List Js → List String
  | [] => []
  | x :: xs => (serializeVal x).getD "null" :: serArr xs
termination_by structural l => l

/-- Fieldwise serialization of an object's association list, keeping keys. -/
def serFields : List (String × Js) → List (String × Option String)
  | [] => []
  | (k, v) :: fs => (k, serializeVal v) :: serFields fs
termination_by structural l => l

end

/-- Body of the `obj` case of `serializeVal`: serialization of one object. -/
def serializeObj (fs : List (String × Js)) : String :=
  "\x7b" ++
    String.intercalate ","
      ((List.insertionSort pairLE (serFields fs)).filterMap entryStr) ++
  "\x7d"

/-- Fieldwise serialization as a plain map, for the sorting lemmas. -/
def serPair (p : String × Js) : String × Option String := (p.1, serializeVal p.2)

mutual

/-- Normal form of a JS value under key reordering: every object's field
list is put into sorted key order, recursively; nothing else changes.
Two payloads are structurally equal up to reordering of mapping keys (at
any nesting level) exactly when they have the same `canonKeys` normal
form; `canonKeys_obj_perm` below shows the field lists are only
permuted. -/
def canonKeys : Js → Js
  | .arr xs => .arr (canonList xs)
  | .obj fs => .obj (List.insertionSort fieldLE (canonFields fs))
  | .null => .null
  | .bool b => .bool b
  | .num n => .num n
  | .str s => .str s
  | .undef => .undef
  | .func => .func
termination_by structural x => x

/-- Elementwise `canonKeys` on array elements (order preserved). -/
def canonList : List Js → List Js
  | [] => []
  | x :: xs => canonKeys x :: canonList xs
termination_by structural l => l

/-- Fieldwise `canonKeys` on object fields, keeping keys and order. -/
def canonFields : List (String × Js) → List (String × Js)
  | [] => []
  | (k, v) :: fs => (k, canonKeys v) :: canonFields fs
termination_by structural l => l

end

/-- Fieldwise `canonKeys` as a plain map, for the sorting lemmas. -/
def canonPair (p : String × Js) : String × Js := (p.1, canonKeys p.2)

mutual

/-- Does a value contain, at any depth, a value whose type is outside the
supported scalar/sequence/mapping set? -/
def hasUnsupported : Js → Bool
  | .undef => true
  | .func => true
  | .arr xs => hasUnsupportedL xs
  | .obj fs => hasUnsupportedF fs
  | .null => false
  | .bool _ => false
  | .num _ => false
  | .str _ => false
termination_by structural x => x

def hasUnsupportedL : List Js → Bool
  | [] => false
  | x :: xs => hasUnsupported x || hasUnsupportedL xs
termination_by structural l => l

def hasUnsupportedF : List (String × Js) → Bool
  | [] => false
  | (_, v) :: fs => hasUnsupported v || hasUnsupportedF fs
termination_by structural l => l

end

/-! ## The frontend verifier (`src/frontend/js/verifier.js`) -/

/-- `delete dataCopy.signature` on a spread copy of the data object:
the own property named `signature` is removed (a JS object has at most
one, so removing every occurrence from the association list coincides). -/
def deleteSignature (fs : List (String × Js)) : List (String × Js) :=
  fs.filter (fun p => p.1 ≠ "signature")

/-- `JSON.stringify(dataCopy, sortKeys)` on the copy of the payload with
its `signature` field removed: the canonical bytes used as the
verification message (`verifySignatureWithWebCrypto`, lines 184–189). -/
def encodeForVerify (fs : List (String × Js)) : String :=
  serializeObj (deleteSignature fs)

/-- Value of a base64 character (`atob` alphabet). -/
def base64Index (c : Char) : Option Nat :=
  if 'A' ≤ c ∧ c ≤ 'Z' then some (c.toNat - 65)
  else if 'a' ≤ c ∧ c ≤ 'z' then some (c.toNat - 97 + 26)
  else if '0' ≤ c ∧ c ≤ '9' then some (c.toNat - 48 + 52)
  else if c = '+' then some 62
  else if c = '/' then some 63
  else none

/-- Pack a list of sextets into bytes; a single trailing sextet cannot be
decoded (`atob` raises `InvalidCharacterError`). -/
def sextetsToBytes : List Nat → Option (List Nat)
  | [] => some []
  | [_] => none
  | [a, b] => some [a * 4 + b / 16]
  | [a, b, c] => some [a * 4 + b / 16, (b % 16) * 16 + c / 4]
  | a :: b :: c :: d :: rest =>
      (sextetsToBytes rest).map
        (fun bytes => (a * 4 + b / 16) :: ((b % 16) * 16 + c / 4) :: ((c % 4) * 64 + d) :: bytes)

/-- Remove up to two trailing `=` padding characters. -/
def dropTrailingEq (cs : List Char) : List Char :=
  match cs.reverse with
  | '=' :: '=' :: r => r.reverse
  | '=' :: r => r.reverse
  | _ => cs

/-- ASCII whitespace stripped by the forgiving-base64 decode behind `atob`. -/
def isB64Whitespace (c : Char) : Bool :=
  c = ' ' ∨ c = '\t' ∨ c = '\n' ∨ c = '\x0c' ∨ c = '\r'

/-- `atob(base64)` as used by `base64ToUint8Array` (lines 224–232):
forgiving-base64 decode to a byte list, `none` when the input is
undecodable (invalid characters, misplaced padding, or a dangling
character). -/
def base64Decode (s : String) : Option (List Nat) :=
  let cs := s.toList.filter (fun c => ¬ isB64Whitespace c)
  let cs := if cs.length % 4 = 0 then dropTrailingEq cs else cs
  if cs.length % 4 = 1 then none
  else
    match cs.mapM base64Index with
    | none => none
    | some sextets => sextetsToBytes sextets

/-- `pem.substring(26, pem.length - 24)` followed by
`.replace(/\n/g, '')`: strip the 26-character PEM header and 24-character
footer, then remove every newline.  (Header and footer are ASCII, so
JS UTF-16 indices coincide with character counts.) -/
def pemContents (pem : String) : String :=
  let body := pem.data.drop 26
  ⟨(body.take (body.length - 24)).filter (fun c => c ≠ '\n')⟩

/-- `pemToUint8Array` (lines 235–243): strip header, footer and newlines,
base64-decode.  `none` models the decode throwing. -/
def pemToBytes (pem : String) : Option (List Nat) :=
  base64Decode (pemContents pem)

/-- `verifySignatureWithWebCrypto(data, signatureB64, publicKeyPem)`
(lines 182–221).  `importKey` abstracts `crypto.subtle.importKey` on the
SPKI bytes (`none` models a rejected promise), `cryptoVerify` abstracts
`crypto.subtle.verify` on the imported key, signature bytes and message;
the message is the canonical JSON text (its UTF-8 encoding by
`TextEncoder` is injective, so the string itself is kept).  Every failure
is caught and the function returns `false`. -/
def verifySignatureWithWebCrypto {K : Type} (importKey : List Nat → Option K)
    (cryptoVerify : K → List Nat → String → Bool)
    (data : List (String × Js)) (signatureB64 : String) (publicKeyPem : String) : Bool :=
  let json_data := encodeForVerify data
  match base64Decode signatureB64 with
  | none => false
  | some signature =>
    match pemToBytes publicKeyPem with
    | none => false
    | some spki =>
      match importKey spki with
      | none => false
      | some publicKey => cryptoVerify publicKey signature json_data

/-- `verifySignatureClientSide(data)` (lines 107–133): remove the
`signature` field from a copy of the data, return `false` when no trusted
keys are loaded, otherwise try every trusted key in order and return
`true` on the first success, `false` when none succeeds.  The extracted
`data.signature` string is passed explicitly. -/
def verifySignatureClientSide {K : Type} (importKey : List Nat → Option K)
    (cryptoVerify : K → List Nat → String → Bool)
    (trustedKeys : List String) (data : List (String × Js)) (signatureB64 : String) : Bool :=
  let dataCopy := deleteSignature data
  if trustedKeys.isEmpty then false
  else trustedKeys.any
    (fun publicKey =>
      verifySignatureWithWebCrypto importKey cryptoVerify dataCopy signatureB64 publicKey)

/-! ## Spec-modelled core components

The repository's design documents (`secure_volunteer_system_design.md`,
`distributed_system_architecture.md`, the moderation design) declare a
backend Signature Verifier with typed outcomes, a Consensus Engine and a
Moderation Queue (`consensus_engine.py`, `moderation_queue.py`, a
verification network), but no such code is present — the frontend
placeholder in `verifier.js` collapses every outcome to a boolean.  The
definitions below are therefore modelled from the spec's words. -/

/-- Modelled from the spec: a `TrustedKey` record of the Trusted Key Store
(spec §3) — an identifier derived from the key material plus the public
key bytes.  The store itself (`add_key`/`revoke_key`) is absent from the
source; only the fields the Signature Verifier reads are modelled. -/
structure TrustedKey where
  key_id : Nat
  material : List Nat
deriving DecidableEq

/-- Modelled from the spec: the outcome alternatives of a
`VerificationOutcome` (spec §3): `valid`, `invalid`, `no_trusted_key`. -/
inductive Outcome where
  | valid : Outcome
  | invalid : Outcome
  | no_trusted_key : Outcome
deriving DecidableEq

/-- Modelled from the spec: a `VerificationOutcome` (spec §3): the outcome
together with `matched_key_id` (`none` when no trusted key validated). -/
structure VOutcome where
  outcome : Outcome
  matched_key_id : Option Nat
deriving DecidableEq

/-- Modelled from the spec: the error taxonomy of verification (spec §7):
`MalformedSubmission` (payload has unsupported types, fails closed) and
`MalformedSignature` (signature bytes undecodable). -/
inductive VerifyError where
  | MalformedSubmission : VerifyError
  | MalformedSignature : VerifyError
deriving DecidableEq

/-- Modelled from the spec: the core Canonical Encoder (spec §4.1), absent
from the source as a fail-closed component: it throws/returns an error if
the payload contains a value type outside the supported set, and otherwise
produces the canonical bytes with the `signature` envelope field
excluded.  The byte production itself is shared with the frontend encoder
(`encodeForVerify`). -/
def canonicalEncode (fs : List (String × Js)) : Option String :=
  if hasUnsupportedF fs then none else some (encodeForVerify fs)

/-- Key-id order: canonical key-store iteration order (spec §4.3: "by
key_id ascending"). -/
def keyIdLE (a b : TrustedKey) : Prop := a.key_id ≤ b.key_id

instance : DecidableRel keyIdLE :=
  fun a b => inferInstanceAs (Decidable (a.key_id ≤ b.key_id))

instance : IsTotal TrustedKey keyIdLE := ⟨fun a b => Nat.le_total a.key_id b.key_id⟩

instance : IsTrans TrustedKey keyIdLE := ⟨fun _ _ _ => Nat.le_trans⟩

/-- Modelled from the spec: the core Signature Verifier's
`verify(submission) -> VerificationOutcome` (spec §4.3), absent from the
source (the frontend placeholder returns only a boolean).  Steps, per the
spec: canonicalize the payload (failing closed on unsupported types);
decode the signature (undecodable bytes fail with `MalformedSignature`);
scan the snapshot keys in key_id-ascending order and stop at the first
match (`valid` with that `matched_key_id`); otherwise `invalid` when the
snapshot was non-empty and `no_trusted_key` when it was empty.  The
cryptographic primitive is abstracted as `verifies msg sig key`. -/
def verifyCore (verifies : String → List Nat → TrustedKey → Bool)
    (snapshot : List TrustedKey) (payload : List (String × Js)) (signatureB64 : String) :
    Except VerifyError VOutcome :=
  match canonicalEncode payload with
  | none => .error .MalformedSubmission
  | some msg =>
    match base64Decode signatureB64 with
    | none => .error .MalformedSignature
    | some sig =>
      match (List.insertionSort keyIdLE snapshot).find? (fun k => verifies msg sig k) with
      | some k => .ok ⟨.valid, some k.key_id⟩
      | none => .ok ⟨if snapshot.isEmpty then .no_trusted_key else .invalid, none⟩

/-- Modelled from the spec: the per-submission consensus states (spec §3):
`pending`, `verified`, `rejected`, `expired`. -/
inductive FinalStatus where
  | pending : FinalStatus
  | verified : FinalStatus
  | rejected : FinalStatus
  | expired : FinalStatus
deriving DecidableEq

/-- Modelled from the spec: a `ConsensusResult` aggregate (spec §3) —
quorum, received votes, the two recomputed weights
(`Σ confidence × reputation`, exact rationals standing for the spec's
decimal weights) and the current final status. -/
structure ConsensusState where
  required_votes : Nat
  received_votes : Nat
  approve_weight : ℚ
  reject_weight : ℚ
  final_status : FinalStatus
deriving DecidableEq

/-- Modelled from the spec: one evaluation step of the Consensus Engine
(spec §4.5), absent from the source.  Terminal states are sticky; with at
least `required_votes` votes the strictly heavier side decides (a tie
stays `pending`); if the window has expired with fewer than
`required_votes` votes the submission expires. -/
def evaluateConsensus (s : ConsensusState) (windowExpired : Bool) : ConsensusState :=
  if s.final_status ≠ .pending then s
  else if s.received_votes ≥ s.required_votes ∧ s.approve_weight > s.reject_weight then
    { s with final_status := .verified }
  else if s.received_votes ≥ s.required_votes ∧ s.reject_weight > s.approve_weight then
    { s with final_status := .rejected }
  else if windowExpired ∧ s.received_votes < s.required_votes then
    { s with final_status := .expired }
  else s

/-- Modelled from the spec: flag lifecycle states (spec §3). -/
inductive FlagStatus where
  | pending : FlagStatus
  | in_review : FlagStatus
  | resolved : FlagStatus
deriving DecidableEq

/-- Modelled from the spec: a community `Flag` (spec §3), reduced to the
fields the resolution path reads. -/
structure Flag where
  content_id : Nat
  status : FlagStatus
deriving DecidableEq

/-- Modelled from the spec: moderation actions (spec §3). -/
inductive ModAction where
  | approve : ModAction
  | remove : ModAction
  | edit : ModAction
deriving DecidableEq

/-- Modelled from the spec: the error of double resolution (spec §4.6). -/
inductive ModError where
  | AlreadyResolved : ModError
deriving DecidableEq

/-- Modelled from the spec: `resolve(flag_id, action)` of the Moderation
Queue (spec §4.6), absent from the source.  Resolution requires the flag
to be `pending` or `in_review` (a second attempt fails with
`AlreadyResolved`), marks the flag `resolved`, and with action `remove`
additionally forces the submission's ConsensusResult to `rejected`
regardless of prior vote weights. -/
def resolveFlag (f : Flag) (a : ModAction) (c : ConsensusState) :
    Except ModError (Flag × ConsensusState) :=
  if f.status = .resolved then .error .AlreadyResolved
  else
    .ok ({ f with status := .resolved },
         if a = .remove then { c with final_status := .rejected } else c)

/-! ## Properties of the key order -/

theorem charListLe_total : ∀ as bs, charListLe as bs = true ∨ charListLe bs as = true
  | [], _ => Or.inl rfl
  | _ :: _, [] => Or.inr rfl
  | a :: as, b :: bs => by
      simp only [charListLe]
      by_cases hab : a < b
      · exact Or.inl (by rw [if_pos hab])
      · by_cases hba : b < a
        · exact Or.inr (by rw [if_pos hba])
        · have hEq : a = b := le_antisymm (not_lt.mp hba) (not_lt.mp hab)
          subst hEq
          simp only [if_neg hab]
          exact charListLe_total as bs

theorem charListLe_trans :
    ∀ as bs cs, charListLe as bs = true → charListLe bs cs = true →
      charListLe as cs = true
  | [], _, _, _, _ => rfl
  | _ :: _, [], _, h, _ => absurd h (by simp [charListLe])
  | _ :: _, _ :: _, [], _, h => absurd h (by simp [charListLe])
  | a :: as, b :: bs, c :: cs, h1, h2 => by
      simp only [charListLe] at h1 h2 ⊢
      by_cases hab : a < b
      · by_cases hbc : b < c
        · rw [if_pos (lt_trans hab hbc)]
        · by_cases hcb : c < b
          · rw [if_neg hbc, if_pos hcb] at h2
            exact absurd h2 (by simp)
          · have hEq : b = c := le_antisymm (not_lt.mp hcb) (not_lt.mp hbc)
            subst hEq
            rw [if_pos hab]
      · by_cases hba : b < a
        · rw [if_neg hab, if_pos hba] at h1
          exact absurd h1 (by simp)
        · have hEq : a = b := le_antisymm (not_lt.mp hba) (not_lt.mp hab)
          subst hEq
          by_cases hac : a < c
          · rw [if_pos hac]
          · by_cases hca : c < a
            · rw [if_neg hac, if_pos hca] at h2
              exact absurd h2 (by simp)
            · have hEq : a = c := le_antisymm (not_lt.mp hca) (not_lt.mp hac)
              subst hEq
              simp only [if_neg hab] at h1 h2 ⊢
              exact charListLe_trans as bs cs h1 h2

theorem charListLe_antisymm :
    ∀ as bs, charListLe as bs = true → charListLe bs as = true → as = bs
  | [], [], _, _ => rfl
  | _ :: _, [], h, _ => absurd h (by simp [charListLe])
  | [], _ :: _, _, h => absurd h (by simp [charListLe])
  | a :: as, b :: bs, h1, h2 => by
      simp only [charListLe] at h1 h2
      by_cases hab : a < b
      · rw [if_neg (asymm hab), if_pos hab] at h2
        exact absurd h2 (by simp)
      · by_cases hba : b < a
        · rw [if_neg hab, if_pos hba] at h1
          exact absurd h1 (by simp)
        · have hEq : a = b := le_antisymm (not_lt.mp hba) (not_lt.mp hab)
          subst hEq
          simp only [if_neg hab] at h1 h2
          exact congrArg (a :: ·) (charListLe_antisymm as bs h1 h2)

theorem strLe_total (a b : String) : strLe a b = true ∨ strLe b a = true :=
  charListLe_total a.data b.data

theorem strLe_trans {a b c : String} (h1 : strLe a b = true) (h2 : strLe b c = true) :
    strLe a c = true :=
  charListLe_trans a.data b.data c.data h1 h2

theorem strLe_antisymm {a b : String} (h1 : strLe a b = true) (h2 : strLe b a = true) :
    a = b := by
  cases a
  cases b
  exact congrArg String.mk (charListLe_antisymm _ _ h1 h2)

theorem pairLE_total : ∀ p q : String × Option String, pairLE p q ∨ pairLE q p :=
  fun p q => strLe_total p.1 q.1

theorem pairLE_trans : ∀ p q s : String × Option String, pairLE p q → pairLE q s → pairLE p s :=
  fun _ _ _ => strLe_trans

theorem fieldLE_total : ∀ p q : String × Js, fieldLE p q ∨ fieldLE q p :=
  fun p q => strLe_total p.1 q.1

theorem fieldLE_trans : ∀ p q s : String × Js, fieldLE p q → fieldLE q s → fieldLE p s :=
  fun _ _ _ => strLe_trans

/-! ## Properties of the canonical encoder -/

theorem serializeVal_obj (fs : List (String × Js)) :
    serializeVal (.obj fs) = some (serializeObj fs) := rfl

theorem serFields_eq_map : ∀ fs : List (String × Js), serFields fs = fs.map serPair
  | [] => rfl
  | (k, v) :: fs => by
      simp only [serFields, List.map_cons, serPair, serFields_eq_map fs]

theorem canonFields_eq_map : ∀ fs : List (String × Js), canonFields fs = fs.map canonPair
  | [] => rfl
  | (k, v) :: fs => by
      simp only [canonFields, List.map_cons, canonPair, canonFields_eq_map fs]

/-- Serializing fields and then sorting by key equals sorting by key and
then serializing: the definition of `serializeVal` on objects coincides
with the source's `sortKeys`-then-stringify order of operations. -/
theorem serFields_insertionSort (fs : List (String × Js)) :
    serFields (List.insertionSort fieldLE fs) = List.insertionSort pairLE (serFields fs) := by
  rw [serFields_eq_map, serFields_eq_map]
  exact List.map_insertionSort fieldLE pairLE serPair fs (fun _ _ _ _ => Iff.rfl)

theorem insertionSort_pairLE_idem (l : List (String × Option String)) :
    List.insertionSort pairLE (List.insertionSort pairLE l) = List.insertionSort pairLE l := by
  haveI : IsTotal (String × Option String) pairLE := ⟨pairLE_total⟩
  haveI : IsTrans (String × Option String) pairLE := ⟨pairLE_trans⟩
  exact (List.sorted_insertionSort pairLE l).insertionSort_eq

mutual

/-- Serialization only depends on the `canonKeys` normal form: putting the
payload's mappings into canonical key order first does not change the
encoder's output, because the encoder itself orders keys canonically at
every level. -/
theorem serializeVal_canonKeys : ∀ x : Js, serializeVal (canonKeys x) = serializeVal x
  | .null => rfl
  | .bool b => rfl
  | .num n => rfl
  | .str s => rfl
  | .undef => rfl
  | .func => rfl
  | .arr xs => by
      simp only [canonKeys, serializeVal, serArr_canonList xs]
  | .obj fs => by
      simp only [canonKeys, serializeVal]
      rw [serFields_insertionSort, serFields_canonFields fs, insertionSort_pairLE_idem]

theorem serArr_canonList : ∀ xs : List Js, serArr (canonList xs) = serArr xs
  | [] => rfl
  | x :: xs => by
      simp only [canonList, serArr, serializeVal_canonKeys x, serArr_canonList xs]

theorem serFields_canonFields : ∀ fs : List (String × Js), serFields (canonFields fs) = serFields fs
  | [] => rfl
  | (k, v) :: fs => by
      simp only [canonFields, serFields, serializeVal_canonKeys v, serFields_canonFields fs]

end

/-- Two sorted field lists that are permutations of each other and whose
keys are duplicate-free are equal (key order is antisymmetric only across
distinct keys, which duplicate-freedom guarantees). -/
theorem sorted_nodupkeys_perm_eq :
    ∀ {l1 l2 : List (String × Js)}, l1.Perm l2 →
      l1.Sorted fieldLE → l2.Sorted fieldLE → (l1.map Prod.fst).Nodup → l1 = l2
  | [], l2, h, _, _, _ => (h.symm.eq_nil).symm
  | a :: t1, [], h, _, _, _ => absurd h.eq_nil (by simp)
  | a :: t1, b :: t2, h, hs1, hs2, hnd => by
      have ha2 : a ∈ b :: t2 := h.mem_iff.mp (List.mem_cons_self a t1)
      have hb1 : b ∈ a :: t1 := h.mem_iff.mpr (List.mem_cons_self b t2)
      by_cases hab : a = b
      · subst hab
        have ht : t1 = t2 :=
          sorted_nodupkeys_perm_eq h.cons_inv hs1.tail hs2.tail (List.Nodup.of_cons hnd)
        rw [ht]
      · have h1 : fieldLE a b := by
          rcases List.mem_cons.mp hb1 with e | hmem
          · exact absurd e.symm hab
          · exact List.rel_of_sorted_cons hs1 b hmem
        have h2 : fieldLE b a := by
          rcases List.mem_cons.mp ha2 with e | hmem
          · exact absurd e hab
          · exact List.rel_of_sorted_cons hs2 a hmem
        have hk : a.1 = b.1 := strLe_antisymm h1 h2
        have hbt1 : b ∈ t1 := (List.mem_cons.mp hb1).resolve_left (fun e => hab e.symm)
        have hkey : a.1 ∈ t1.map Prod.fst := hk ▸ List.mem_map_of_mem Prod.fst hbt1
        exact absurd hkey (List.nodup_cons.mp hnd).1

/-- The canonical normal form identifies exactly the payloads obtained
from one another by reordering mapping fields: permuting an object's
field list (with duplicate-free keys, as JS objects have) does not change
the `canonKeys` normal form. -/
theorem canonKeys_eq_of_perm {fs gs : List (String × Js)} (h : fs.Perm gs)
    (hnd : (fs.map Prod.fst).Nodup) : canonKeys (.obj fs) = canonKeys (.obj gs) := by
  simp only [canonKeys]
  congr 1
  have hperm : (canonFields fs).Perm (canonFields gs) := by
    rw [canonFields_eq_map, canonFields_eq_map]
    exact h.map canonPair
  have hkeys : (canonFields fs).map Prod.fst = fs.map Prod.fst := by
    rw [canonFields_eq_map, List.map_map]
    rfl
  haveI : IsTotal (String × Js) fieldLE := ⟨fieldLE_total⟩
  haveI : IsTrans (String × Js) fieldLE := ⟨fieldLE_trans⟩
  refine sorted_nodupkeys_perm_eq ?_ ?_ ?_ ?_
  · exact ((List.perm_insertionSort fieldLE _).trans hperm).trans
      (List.perm_insertionSort fieldLE _).symm
  · exact List.sorted_insertionSort fieldLE _
  · exact List.sorted_insertionSort fieldLE _
  · have hp : ((List.insertionSort fieldLE (canonFields fs)).map Prod.fst).Perm
        ((canonFields fs).map Prod.fst) := (List.perm_insertionSort fieldLE _).map Prod.fst
    rw [hp.nodup_iff, hkeys]
    exact hnd

/-- `canonKeys` only reorders each object's fields (and canonicalizes the
values): at every object the produced field list is a permutation of the
fieldwise-canonicalized original. -/
theorem canonKeys_obj_perm (fs : List (String × Js)) :
    (List.insertionSort fieldLE (canonFields fs)).Perm (canonFields fs) :=
  List.perm_insertionSort fieldLE (canonFields fs)

/-! ## List scan helpers -/

theorem find?_eq_some_of_unique {α : Type} (p : α → Bool) :
    ∀ (l : List α) (k : α), k ∈ l → p k = true → (∀ x ∈ l, p x = true → x = k) →
      l.find? p = some k
  | [], k, h, _, _ => absurd h (List.not_mem_nil k)
  | a :: l, k, h, hp, hu => by
      by_cases ha : p a = true
      · have hak : a = k := hu a (List.mem_cons_self a l) ha
        subst hak
        rw [List.find?_cons_of_pos _ ha]
      · rw [List.find?_cons_of_neg _ (by simpa using ha)]
        have hk : k ∈ l := by
          rcases List.mem_cons.mp h with e | hmem
          · exact absurd (e ▸ hp) ha
          · exact hmem
        exact find?_eq_some_of_unique p l k hk hp
          (fun x hx hpx => hu x (List.mem_cons_of_mem a hx) hpx)

theorem any_eq_of_perm {α : Type} {l1 l2 : List α} (h : l1.Perm l2) (f : α → Bool) :
    l1.any f = l2.any f := by
  induction h with
  | nil => rfl
  | cons x _ ih => simp only [List.any_cons, ih]
  | swap x y l => simp only [List.any_cons, ← Bool.or_assoc, Bool.or_comm (f y) (f x)]
  | trans _ _ ih1 ih2 => exact ih1.trans ih2

/-- The empty-key shortcut in `verifySignatureClientSide` coincides with
the key-scan result on the empty list, so the function is the scan. -/
theorem verifySignatureClientSide_eq_any {K : Type} (importKey : List Nat → Option K)
    (cryptoVerify : K → List Nat → String → Bool)
    (trustedKeys : List String) (data : List (String × Js)) (signatureB64 : String) :
    verifySignatureClientSide importKey cryptoVerify trustedKeys data signatureB64 =
      trustedKeys.any
        (fun publicKey =>
          verifySignatureWithWebCrypto importKey cryptoVerify (deleteSignature data)
            signatureB64 publicKey) := by
  cases trustedKeys with
  | nil => rfl
  | cons a l => rfl

/-- Inserting a field that serializes to `none` anywhere into a sorted
serialized field list contributes nothing to the emitted entries. -/
theorem filterMap_entryStr_orderedInsert_none (x : String × Option String)
    (hx : entryStr x = none) :
    ∀ l : List (String × Option String),
      (List.orderedInsert pairLE x l).filterMap entryStr = l.filterMap entryStr
  | [] => by simp [List.orderedInsert, List.filterMap_cons, hx]
  | b :: l => by
      rw [List.orderedInsert]
      by_cases h : pairLE x b
      · rw [if_pos h, List.filterMap_cons, hx]
      · rw [if_neg h, List.filterMap_cons, List.filterMap_cons,
          filterMap_entryStr_orderedInsert_none x hx l]

/-- A field whose value is unsupported (serializes to `none`) is omitted
from the object's encoding. -/
theorem serializeVal_obj_none_field (k : String) (v : Js) (fs : List (String × Js))
    (hv : serializeVal v = none) :
    serializeVal (.obj ((k, v) :: fs)) = serializeVal (.obj fs) := by
  simp only [serializeVal, serFields, hv, List.insertionSort]
  rw [filterMap_entryStr_orderedInsert_none (k, none) rfl]

/-! ## The claims -/

/-- C1: for every two payloads that are structurally equal up to
reordering of mapping keys at any nesting level — i.e. with the same
`canonKeys` normal form, which only permutes each mapping's fields
(`canonKeys_obj_perm`, `canonKeys_eq_of_perm`) — the canonical encoder
`JSON.stringify(·, sortKeys)` of `verifier.js` produces identical bytes;
sequence order is preserved by the encoder by construction. -/
theorem C1_encode_deterministic_under_key_reordering (a b : Js)
    (h : canonKeys a = canonKeys b) : serializeVal a = serializeVal b := by
  rw [← serializeVal_canonKeys a, ← serializeVal_canonKeys b, h]

/-- C1 witness: reordering keys at two nesting levels leaves the encoded
bytes unchanged. -/
theorem C1_encode_deterministic_under_key_reordering_witness :
    canonKeys (.obj [("b", .num 1), ("a", .obj [("d", .num 2), ("c", .num 3)])]) =
      canonKeys (.obj [("a", .obj [("c", .num 3), ("d", .num 2)]), ("b", .num 1)]) ∧
    serializeVal (.obj [("b", .num 1), ("a", .obj [("d", .num 2), ("c", .num 3)])]) =
      serializeVal (.obj [("a", .obj [("c", .num 3), ("d", .num 2)]), ("b", .num 1)]) :=
  ⟨rfl, C1_encode_deterministic_under_key_reordering _ _ rfl⟩

/-- C2 (spec-modelled): when the message is signed by a keypair whose
public half is in the trusted snapshot — abstractly, the signature
verifies under that key and under no other trusted key — the core
`verify` returns outcome `valid` with `matched_key_id` equal to that
key's id. -/
theorem C2_verify_valid_with_matched_key_id
    (verifies : String → List Nat → TrustedKey → Bool)
    (snapshot : List TrustedKey) (payload : List (String × Js)) (signatureB64 : String)
    (k : TrustedKey) (msg : String) (sig : List Nat)
    (hmsg : canonicalEncode payload = some msg)
    (hsig : base64Decode signatureB64 = some sig)
    (hk : k ∈ snapshot)
    (hv : verifies msg sig k = true)
    (hu : ∀ k' ∈ snapshot, verifies msg sig k' = true → k' = k) :
    verifyCore verifies snapshot payload signatureB64 = .ok ⟨.valid, some k.key_id⟩ := by
  have hmem : k ∈ List.insertionSort keyIdLE snapshot :=
    (List.perm_insertionSort keyIdLE snapshot).mem_iff.mpr hk
  have hfind : (List.insertionSort keyIdLE snapshot).find? (fun x => verifies msg sig x) =
      some k :=
    find?_eq_some_of_unique _ _ k hmem hv
      (fun x hx hpx =>
        hu x ((List.perm_insertionSort keyIdLE snapshot).mem_iff.mp hx) hpx)
  simp only [verifyCore, hmsg, hsig, hfind]

/-- C2 witness: a message signed by trusted key 2 verifies as `valid`
with `matched_key_id = 2`. -/
theorem C2_verify_valid_with_matched_key_id_witness :
    verifyCore (fun _ _ k => k.key_id == 2) [⟨1, [1]⟩, ⟨2, [2]⟩]
      [("a", Js.num 1)] "QQ==" = .ok ⟨.valid, some 2⟩ :=
  C2_verify_valid_with_matched_key_id _ _ _ _ ⟨2, [2]⟩ _ _ rfl rfl
    (by decide) rfl (by decide)

/-- C3 (spec-modelled): when no trusted key matches, the core `verify`
returns the outcome `invalid` on a non-empty snapshot and the distinct
outcome `no_trusted_key` on an empty snapshot; the two outcomes are
distinguishable. -/
theorem C3_verify_invalid_vs_no_trusted_key
    (verifies : String → List Nat → TrustedKey → Bool)
    (snapshot : List TrustedKey) (payload : List (String × Js)) (signatureB64 : String)
    (msg : String) (sig : List Nat)
    (hmsg : canonicalEncode payload = some msg)
    (hsig : base64Decode signatureB64 = some sig)
    (hnone : ∀ k ∈ snapshot, verifies msg sig k = false) :
    (snapshot ≠ [] →
      verifyCore verifies snapshot payload signatureB64 = .ok ⟨.invalid, none⟩) ∧
    (snapshot = [] →
      verifyCore verifies snapshot payload signatureB64 = .ok ⟨.no_trusted_key, none⟩) ∧
    Outcome.invalid ≠ Outcome.no_trusted_key := by
  have hfind : (List.insertionSort keyIdLE snapshot).find? (fun x => verifies msg sig x) =
      none := by
    rw [List.find?_eq_none]
    intro x hx
    rw [hnone x ((List.perm_insertionSort keyIdLE snapshot).mem_iff.mp hx)]
    simp
  refine ⟨?_, ?_, by simp⟩
  · intro hne
    have hempty : snapshot.isEmpty = false := by
      cases snapshot with
      | nil => exact absurd rfl hne
      | cons a l => rfl
    simp only [verifyCore, hmsg, hsig, hfind, hempty]
    rfl
  · intro hnil
    subst hnil
    simp only [verifyCore, hmsg, hsig, hfind]
    rfl

/-- C3 witness: a signature matching no key is `invalid` against one
trusted key and `no_trusted_key` against an empty snapshot. -/
theorem C3_verify_invalid_vs_no_trusted_key_witness :
    verifyCore (fun _ _ _ => false) [⟨1, [1]⟩] [("a", Js.num 1)] "QQ==" =
      .ok ⟨.invalid, none⟩ ∧
    verifyCore (fun _ _ _ => false) [] [("a", Js.num 1)] "QQ==" =
      .ok ⟨.no_trusted_key, none⟩ :=
  ⟨(C3_verify_invalid_vs_no_trusted_key (fun _ _ _ => false) [⟨1, [1]⟩]
      [("a", Js.num 1)] "QQ==" (encodeForVerify [("a", Js.num 1)]) [65] rfl rfl
      (fun _ _ => rfl)).1 (by simp),
   (C3_verify_invalid_vs_no_trusted_key (fun _ _ _ => false) []
      [("a", Js.num 1)] "QQ==" (encodeForVerify [("a", Js.num 1)]) [65] rfl rfl
      (fun _ _ => rfl)).2.1 rfl⟩

/-- C4 (spec-modelled): one consensus evaluation step reaches `verified`
from `pending` exactly when `received_votes ≥ required_votes` and
`approve_weight > reject_weight`; it reaches `expired` when the window
has elapsed with `received_votes < required_votes`; and a terminal
(non-`pending`) state is never left. -/
theorem C4_consensus_state_machine (s : ConsensusState) (w : Bool) :
    (s.final_status = .pending →
      ((evaluateConsensus s w).final_status = .verified ↔
        s.received_votes ≥ s.required_votes ∧ s.approve_weight > s.reject_weight)) ∧
    (s.final_status = .pending → w = true →
      s.received_votes < s.required_votes →
      (evaluateConsensus s w).final_status = .expired) ∧
    (s.final_status ≠ .pending → evaluateConsensus s w = s) := by
  refine ⟨?_, ?_, ?_⟩
  · intro hp
    simp only [evaluateConsensus, hp, ne_eq, not_true_eq_false, if_false]
    split_ifs with h1 h2 h3
    · exact iff_of_true rfl h1
    · exact iff_of_false id (fun hcon => lt_asymm h2.2 hcon.2)
    · exact iff_of_false id (fun hcon => Nat.not_lt.mpr hcon.1 h3.2)
    · exact iff_of_false (fun hcon => FinalStatus.noConfusion (hp.symm.trans hcon)) h1
  · intro hp hw hlt
    simp only [evaluateConsensus, hp, ne_eq, not_true_eq_false, if_false]
    rw [if_neg (fun h => Nat.not_lt.mpr h.1 hlt),
      if_neg (fun h => Nat.not_lt.mpr h.1 hlt),
      if_pos ⟨hw, hlt⟩]
  · intro hp
    simp only [evaluateConsensus, if_pos hp]

/-- C4 witness: two approve votes of weight 0.45 + 0.4 against one reject
of weight 0.25 with quorum 3 reach `verified`; two of three votes at
window expiry reach `expired`; a `rejected` state is unchanged. -/
theorem C4_consensus_state_machine_witness :
    (evaluateConsensus ⟨3, 3, 17/20, 1/4, .pending⟩ false).final_status = .verified ∧
    (evaluateConsensus ⟨3, 2, 17/20, 0, .pending⟩ true).final_status = .expired ∧
    evaluateConsensus ⟨3, 5, 17/20, 1/4, .rejected⟩ true = ⟨3, 5, 17/20, 1/4, .rejected⟩ :=
  ⟨(C4_consensus_state_machine ⟨3, 3, 17/20, 1/4, .pending⟩ false).1 rfl |>.mpr
      ⟨le_refl 3, by norm_num⟩,
   (C4_consensus_state_machine ⟨3, 2, 17/20, 0, .pending⟩ true).2.1 rfl rfl
      (by norm_num),
   (C4_consensus_state_machine ⟨3, 5, 17/20, 1/4, .rejected⟩ true).2.2 (by simp)⟩

/-- C5: the `signature` field of the payload envelope, wherever it sits,
is excluded from the canonically encoded bytes used as the verification
message: the encoded bytes are identical whether or not the envelope
carries a `signature` field. -/
theorem C5_signature_field_excluded (fs1 fs2 : List (String × Js)) (v : Js) :
    encodeForVerify (fs1 ++ ("signature", v) :: fs2) = encodeForVerify (fs1 ++ fs2) := by
  simp [encodeForVerify, deleteSignature, List.filter_append]

/-- C6 counterexample: a payload containing a function value — a type
outside the supported set — on which the canonical encoder produces
bytes instead of failing. -/
theorem C6_counterexample :
    hasUnsupported (.obj [("a", Js.func), ("b", Js.num 1)]) = true ∧
    (serializeVal (.obj [("a", Js.func), ("b", Js.num 1)])).isSome = true :=
  ⟨rfl, rfl⟩

/-- C6 amended: the encoder does not fail closed on unsupported value
types: every mapping payload produces bytes, a field whose value is
unsupported is silently omitted, and only a payload that is itself an
unsupported value at the root yields no bytes. -/
theorem C6_amended_encoder_omits_unsupported (k : String) (v : Js)
    (fs : List (String × Js)) (hv : serializeVal v = none) :
    (serializeVal (.obj fs)).isSome = true ∧
    serializeVal (.obj ((k, v) :: fs)) = serializeVal (.obj fs) ∧
    serializeVal .undef = none ∧ serializeVal .func = none :=
  ⟨rfl, serializeVal_obj_none_field k v fs hv, rfl, rfl⟩

/-- C6 amended witness: the function-valued field `a` is omitted and the
remaining payload still encodes. -/
theorem C6_amended_encoder_omits_unsupported_witness :
    (serializeVal (.obj [("b", Js.num 1)])).isSome = true ∧
    serializeVal (.obj [("a", Js.func), ("b", Js.num 1)]) =
      serializeVal (.obj [("b", Js.num 1)]) ∧
    serializeVal .undef = none ∧ serializeVal .func = none :=
  C6_amended_encoder_omits_unsupported "a" Js.func [("b", Js.num 1)] rfl

/-- C7 (spec-modelled): an undecodable signature encoding fails with the
distinct error `MalformedSignature`, distinguishable from every ordinary
outcome and in particular from `invalid`. -/
theorem C7_malformed_signature_distinct
    (verifies : String → List Nat → TrustedKey → Bool)
    (snapshot : List TrustedKey) (payload : List (String × Js)) (signatureB64 : String)
    (msg : String)
    (hmsg : canonicalEncode payload = some msg)
    (hsig : base64Decode signatureB64 = none) :
    verifyCore verifies snapshot payload signatureB64 = .error .MalformedSignature ∧
    ∀ o : VOutcome,
      (Except.error VerifyError.MalformedSignature : Except VerifyError VOutcome) ≠
        .ok o := by
  refine ⟨?_, fun o h => Except.noConfusion h⟩
  simp only [verifyCore, hmsg, hsig]

/-- C7 witness: the undecodable signature string `"%%%"` fails with
`MalformedSignature` even though a trusted key is present. -/
theorem C7_malformed_signature_distinct_witness :
    verifyCore (fun _ _ _ => true) [⟨1, [1]⟩] [("a", Js.num 1)] "%%%" =
      .error .MalformedSignature :=
  (C7_malformed_signature_distinct (fun _ _ _ => true) [⟨1, [1]⟩] [("a", Js.num 1)]
    "%%%" (encodeForVerify [("a", Js.num 1)]) rfl rfl).1

/-- C8: the binary outcome of the client-side verification is invariant
under permutation of the trusted-key scan order: verification against
each key is independent, and reordering the keys never changes whether a
match is found. -/
theorem C8_outcome_invariant_under_key_order {K : Type}
    (importKey : List Nat → Option K) (cryptoVerify : K → List Nat → String → Bool)
    (keys1 keys2 : List String) (data : List (String × Js)) (signatureB64 : String)
    (h : keys1.Perm keys2) :
    verifySignatureClientSide importKey cryptoVerify keys1 data signatureB64 =
      verifySignatureClientSide importKey cryptoVerify keys2 data signatureB64 := by
  rw [verifySignatureClientSide_eq_any, verifySignatureClientSide_eq_any]
  exact any_eq_of_perm h _

/-- C8 witness: swapping two trusted keys leaves the outcome unchanged. -/
theorem C8_outcome_invariant_under_key_order_witness :
    verifySignatureClientSide (fun _ => (none : Option Nat)) (fun _ _ _ => false)
      ["k2", "k1"] [("a", Js.num 1)] "QQ==" =
    verifySignatureClientSide (fun _ => (none : Option Nat)) (fun _ _ _ => false)
      ["k1", "k2"] [("a", Js.num 1)] "QQ==" :=
  C8_outcome_invariant_under_key_order _ _ _ _ _ _ (List.Perm.swap "k1" "k2" [])

/-- C9 (spec-modelled): resolving an unresolved flag with action `remove`
forces the submission's consensus result to `rejected`, regardless of the
prior weights and status. -/
theorem C9_remove_action_forces_rejected (f : Flag) (c : ConsensusState)
    (h : f.status ≠ .resolved) :
    resolveFlag f .remove c =
      .ok ({ f with status := .resolved }, { c with final_status := .rejected }) := by
  simp only [resolveFlag, if_neg h]
  rfl

/-- C9 witness: a `remove` resolution rejects a submission whose
`approve_weight` strictly exceeded its `reject_weight` and which was
already `verified`. -/
theorem C9_remove_action_forces_rejected_witness :
    ((9 : ℚ)/10 > (1 : ℚ)/10) ∧
    resolveFlag ⟨7, .pending⟩ .remove ⟨3, 3, 9/10, 1/10, .verified⟩ =
      .ok (⟨7, .resolved⟩, ⟨3, 3, 9/10, 1/10, .rejected⟩) :=
  ⟨by norm_num,
   C9_remove_action_forces_rejected ⟨7, .pending⟩ ⟨3, 3, 9/10, 1/10, .verified⟩
     (by simp)⟩

/-- C10: the client-side verification functions are total and map every
internal failure to the boolean `false` instead of an exception:
undecodable signature base64, undecodable PEM key body, and a failing
WebCrypto key import all yield `false`, both from
`verifySignatureWithWebCrypto` and through `verifySignatureClientSide`. -/
theorem C10_errors_return_false {K : Type}
    (importKey : List Nat → Option K) (cryptoVerify : K → List Nat → String → Bool)
    (data : List (String × Js)) (signatureB64 pem : String) (keys : List String) :
    (base64Decode signatureB64 = none →
      verifySignatureWithWebCrypto importKey cryptoVerify data signatureB64 pem = false) ∧
    (pemToBytes pem = none →
      verifySignatureWithWebCrypto importKey cryptoVerify data signatureB64 pem = false) ∧
    (∀ spki, pemToBytes pem = some spki → importKey spki = none →
      verifySignatureWithWebCrypto importKey cryptoVerify data signatureB64 pem = false) ∧
    (base64Decode signatureB64 = none →
      verifySignatureClientSide importKey cryptoVerify keys data signatureB64 = false) := by
  refine ⟨?_, ?_, ?_, ?_⟩
  · intro h
    simp only [verifySignatureWithWebCrypto, h]
  · intro h
    simp only [verifySignatureWithWebCrypto, h]
    cases base64Decode signatureB64 <;> rfl
  · intro spki h1 h2
    simp only [verifySignatureWithWebCrypto, h1, h2]
    cases base64Decode signatureB64 <;> rfl
  · intro h
    rw [verifySignatureClientSide_eq_any]
    rw [List.any_eq_false]
    intro pk _
    simp [verifySignatureWithWebCrypto, h]

/-- C10 witness: the three failure modes and the client-side path all
return `false` on concrete failing inputs. -/
theorem C10_errors_return_false_witness :
    verifySignatureWithWebCrypto (fun _ => (none : Option Unit)) (fun _ _ _ => true)
      [("a", Js.num 1)] "%%%" "p" = false ∧
    verifySignatureWithWebCrypto (fun _ => (none : Option Unit)) (fun _ _ _ => true)
      [("a", Js.num 1)] "QQ==" "-----BEGIN PUBLIC KEY-----%%%-----END PUBLIC KEY-----" =
      false ∧
    verifySignatureWithWebCrypto (fun _ => (none : Option Unit)) (fun _ _ _ => true)
      [("a", Js.num 1)] "QQ==" "-----BEGIN PUBLIC KEY-----AQID-----END PUBLIC KEY-----" =
      false ∧
    verifySignatureClientSide (fun _ => (none : Option Unit)) (fun _ _ _ => true)
      ["k"] [("a", Js.num 1)] "%%%" = false :=
  ⟨(C10_errors_return_false (fun _ => (none : Option Unit)) (fun _ _ _ => true)
      [("a", Js.num 1)] "%%%" "p" []).1 rfl,
   (C10_errors_return_false (fun _ => (none : Option Unit)) (fun _ _ _ => true)
      [("a", Js.num 1)] "QQ=="
      "-----BEGIN PUBLIC KEY-----%%%-----END PUBLIC KEY-----" []).2.1 rfl,
   (C10_errors_return_false (fun _ => (none : Option Unit)) (fun _ _ _ => true)
      [("a", Js.num 1)] "QQ=="
      "-----BEGIN PUBLIC KEY-----AQID-----END PUBLIC KEY-----" []).2.2.1 [1, 2, 3] rfl rfl,
   (C10_errors_return_false (fun _ => (none : Option Unit)) (fun _ _ _ => true)
      [("a", Js.num 1)] "%%%" "p" ["k"]).2.2.2 rfl⟩

end LodeStar
